import Mathlib

/-!
# lrpc/server: registration and dispatch of reflected handlers

A shallow embedding of `src/lrpc/server/server.go` (functions `NewServer`,
`Server.Register`, `Server.Handle`, `Server.ServeHTTP`) and of the `Master`
service of `src/cmd/master/master.go`.

Modelling conventions.

* Go strings are `String`; identifiers and paths are taken to be valid UTF-8.
* A Go panic is the `Except.error` outcome of a function, a normal return is
  `Except.ok`.
* The functions of the Go standard library that the server calls are not part
  of the repository.  They are gathered in the structure `GoLib`, which the
  definitions that call them take as their first argument.  `goStd` is a concrete
  library (ASCII case mapping, value-level JSON for the modelled types) used to
  evaluate the code on concrete inputs.
* JSON texts are represented by the values they denote (`Json`): the request
  body is the first value the decoder reads (or the error of reading it), the
  response body is the list of values written by the encoder.
* Go types and values are a fragment of the language: `string`, the interface
  `error`, defined struct types with string fields, and pointers.
* The types `RequestMessage`, `RequestHead`, `ResponseMessage` and
  `ResponseHead` are declared in `server.go` and used by no function; they have
  no counterpart here.
* A handler method is a function of the receiver, the request and the response
  it is given, to the response it leaves and the value it returns.  The names
  of the methods that were called are recorded in `calls`.
-/

namespace Lrpc

/-! ## Go types and values -/

/-- A field of a struct type: its Go name and the JSON member name it is
encoded under (the `json` tag when there is one, the Go name otherwise).
Fields are of type string. -/
structure Field where
  Name : String
  Key : String
deriving DecidableEq, Repr

/-- Type descriptors (`reflect.Type`); a struct type is a defined type, with
the name of its package and its own name. -/
inductive GoType where
  | string
  | error
  | struct (pkg name : String) (fields : List Field)
  | ptr (elem : GoType)
deriving DecidableEq, Repr

/-- Values (`reflect.Value`).  `err none` is the nil value of the interface
`error`, `err (some msg)` an error whose `Error()` is `msg`; `nilptr` is a nil
pointer and `ptr v` a pointer to `v`. -/
inductive GoValue where
  | str (s : String)
  | err (e : Option String)
  | struct (name : String) (fields : List (Field × String))
  | nilptr
  | ptr (v : GoValue)
deriving DecidableEq, Repr

/-- JSON values. -/
inductive Json where
  | null
  | bool (b : Bool)
  | num (n : Int)
  | str (s : String)
  | arr (xs : List Json)
  | obj (kvs : List (String × Json))
deriving Repr

/-- The standard-library functions called by the server:
`unicode.ToLower` (applied to every rune by `strings.ToLower`),
the decoding of a JSON value into a fresh value of a type
(second phase of `(*json.Decoder).Decode`), and the encoding of a value
(first phase of `(*json.Encoder).Encode`). -/
structure GoLib where
  toLower : Char → Char
  unmarshal : GoType → Json → Except String GoValue
  marshal : GoValue → Except String Json

/-! ## strings -/

/-- Go `strings.ToLower`. -/
def ToLower (L : GoLib) (s : String) : String :=
  ⟨s.data.map L.toLower⟩

/-- Go `strings.HasPrefix`. -/
def HasPrefix (s p : String) : Bool :=
  p.data.isPrefixOf s.data

/-- Go slice expression `s[n:]`; it is only used with `n` the length of an
ASCII prefix of `s`, where byte and rune offsets agree. -/
def sliceFrom (s : String) (n : Nat) : String :=
  ⟨s.data.drop n⟩

/-! ## reflect -/

/-- Go `Type.Name`: the name of a defined type, empty for an unnamed type. -/
def GoType.Name : GoType → String
  | .string => "string"
  | .error => "error"
  | .struct _ name _ => name
  | .ptr _ => ""

/-- Go `Type.String`: the name of a defined type qualified by its package. -/
def GoType.typeString : GoType → String
  | .string => "string"
  | .error => "error"
  | .struct pkg name _ => pkg ++ "." ++ name
  | .ptr e => "*" ++ e.typeString

/-- Go `Type.Elem`: the element type of a pointer; it panics for the other
kinds of the fragment, with the `Type.String` of the type in its text.  The
array, chan, map and slice kinds, which have an element type too, are not in
the fragment. -/
def GoType.Elem : GoType → Except String GoType
  | .ptr e => .ok e
  | .string => .error "reflect: Elem of invalid type string"
  | .error => .error "reflect: Elem of invalid type error"
  | .struct pkg name _ => .error ("reflect: Elem of invalid type " ++ pkg ++ "." ++ name)

/-- Go `reflect.New(t)` followed by `Elem`: the zero value of a type. -/
def GoType.zero : GoType → GoValue
  | .string => .str ""
  | .error => .err none
  | .struct _ name fields => .struct name (fields.map fun f => (f, ""))
  | .ptr _ => .nilptr

/-- Go `Value.IsNil`: defined for interfaces and pointers, a panic for
strings and structs. -/
def GoValue.IsNil : GoValue → Except String Bool
  | .err none => .ok true
  | .err (some _) => .ok false
  | .nilptr => .ok true
  | .ptr _ => .ok false
  | .str _ => .error "reflect: call of reflect.Value.IsNil on string Value"
  | .struct _ _ => .error "reflect: call of reflect.Value.IsNil on struct Value"

/-- The type assertion `v.Interface().(error)` followed by `Error()`: the
message of an error value; a panic for a value that does not implement
`error` (no pointer type of the fragment does). -/
def GoValue.assertError : GoValue → Except String String
  | .err (some msg) => .ok msg
  | _ => .error "interface conversion: value is not error: missing method Error"

/-- A method of the method set of a type (`reflect.Method`): its name, the
parameter types of its function type (receiver first), its result types, and
its behaviour when called with a receiver, a request and a response: the
response it leaves behind its second pointer and the value it returns. -/
structure Method where
  Name : String
  In : List GoType
  Out : List GoType
  Func : GoValue → GoValue → GoValue → GoValue × GoValue

/-- Go `Type.NumIn` of the function type of a method. -/
def Method.NumIn (m : Method) : Nat := m.In.length

/-- Go `Type.NumOut` of the function type of a method. -/
def Method.NumOut (m : Method) : Nat := m.Out.length

/-- Go `Type.In(i)`: the i-th parameter type, a panic when out of range. -/
def Method.InAt (m : Method) (i : Nat) : Except String GoType :=
  match m.In.get? i with
  | some t => .ok t
  | none => .error "reflect: Function index out of bounds"

/-- A value of type `interface{}` as passed to `Register`: its dynamic type
(`reflect.TypeOf`, none for the nil interface), its value (`reflect.ValueOf`)
and the exported method set of the dynamic type, in the order of
`Type.Method(i)`. -/
structure Object where
  rt : Option GoType
  rv : GoValue
  methods : List Method

/-! ## server.go -/

/-- Go `Handler`. -/
structure Handler where
  Name : String
  method : GoValue → GoValue → GoValue → GoValue × GoValue
  mainPointer : GoValue
  requestType : GoType
  responseType : GoType

/-- Go `Server`; only the registry `handlers` is modelled, as an association
list with at most one entry per key. -/
structure Server where
  handlers : List (String × Handler)

/-- Go map assignment `m[k] = v`. -/
def mapSet (m : List (String × Handler)) (k : String) (v : Handler) : List (String × Handler) :=
  (k, v) :: m.filter fun e => e.1 ≠ k

/-- Go map lookup `v, ok := m[k]`. -/
def mapGet (m : List (String × Handler)) (k : String) : Option Handler :=
  (m.find? fun e => e.1 = k).map Prod.snd

/-- Go `NewServer`. -/
def NewServer : Server :=
  { handlers := [] }

/-- The constant `handlePrefix` of `Register`. -/
def handlePrefix : String := "Handle"

/-- The guard of the loop of `Register`: false for the methods that are
skipped with `continue`. -/
def eligible (m : Method) : Bool :=
  !(!HasPrefix m.Name handlePrefix || m.NumIn != 3 || m.NumOut != 1)

/-- The key `hkey` computed by `Register` for a method. -/
def hkey (L : GoLib) (keyPrefix : String) (m : Method) : String :=
  keyPrefix ++ ToLower L (sliceFrom m.Name handlePrefix.length)

/-- The body of the loop of `Register` for one method. -/
def registerMethod (L : GoLib) (vhTypeName keyPrefix : String) (rv : GoValue)
    (srv : Server) (m : Method) : Except String Server :=
  if !HasPrefix m.Name handlePrefix || m.NumIn != 3 || m.NumOut != 1 then
    .ok srv
  else do
    let in1 ← m.InAt 1
    let requestType ← in1.Elem
    let in2 ← m.InAt 2
    let responseType ← in2.Elem
    let handler : Handler :=
      { Name := vhTypeName ++ "." ++ m.Name
        method := m.Func
        mainPointer := rv
        requestType := requestType
        responseType := responseType }
    .ok { srv with handlers := mapSet srv.handlers (hkey L keyPrefix m) handler }

/-- The prefix `keyPrefix` computed by `Register` from the type name. -/
def keyPrefixOf (L : GoLib) (vhTypeName : String) : String :=
  "/qrpc/" ++ ToLower L vhTypeName ++ "/"

/-- Go `Server.Register`. -/
def Register (L : GoLib) (srv : Server) (vh : Object) : Except String Server :=
  match vh.rt with
  | none => .error "runtime error: invalid memory address or nil pointer dereference"
  | some rt => do
    let elem ← rt.Elem
    let vhTypeName := elem.Name
    let keyPrefix := keyPrefixOf L vhTypeName
    vh.methods.foldlM (registerMethod L vhTypeName keyPrefix vh.rv) srv

/-- Go `http.ResponseWriter`: the header map, the JSON values written to the
body so far, and the error that `Write` returns (none when writes succeed). -/
structure ResponseWriter where
  header : List (String × String)
  body : List Json
  writeErr : Option String

/-- Go `rspw.Header().Set(k, v)`. -/
def ResponseWriter.Set (w : ResponseWriter) (k v : String) : ResponseWriter :=
  { w with header := (k, v) :: w.header.filter fun e => e.1 ≠ k }

/-- The value stored in the header map under a name, if any. -/
def ResponseWriter.Get (w : ResponseWriter) (k : String) : Option String :=
  (w.header.find? fun e => e.1 = k).map Prod.snd

/-- Go `rspw.Write`, for the text of one JSON value. -/
def ResponseWriter.Write (w : ResponseWriter) (j : Json) : ResponseWriter × Option String :=
  match w.writeErr with
  | some e => (w, some e)
  | none => ({ w with body := w.body ++ [j] }, none)

/-- Go `req.Body`: what the JSON decoder reads from it (the first JSON value
of the stream, or the error of reading or scanning it) and the result of
`Close`. -/
structure Body where
  value : Except String Json
  closeErr : Option String

/-- Go `http.Request`: the fields the server uses, `URL.Path` and `Body`. -/
structure Request where
  Path : String
  Body : Body

/-- The observable state of one call: the response writer and the names of
the handler methods invoked so far. -/
structure World where
  rspw : ResponseWriter
  calls : List String

/-- Go `json.NewDecoder(req.Body).Decode(reqvi)` into a fresh value of the
request type: the value is read from the body, then decoded into the type. -/
def Decode (L : GoLib) (b : Body) (t : GoType) : Except String GoValue :=
  match b.value with
  | .error e => .error e
  | .ok j => L.unmarshal t j

/-- Go `json.NewEncoder(rspw).Encode(rspvi)`: the value is encoded, then
written; nothing is written when the encoding fails. -/
def Encode (L : GoLib) (rspw : ResponseWriter) (v : GoValue) : ResponseWriter × Option String :=
  match L.marshal v with
  | .error e => (rspw, some e)
  | .ok out => rspw.Write out

/-- Line 92 of `Handle`: the lookup of the handler of a request path. -/
def resolve (L : GoLib) (srv : Server) (path : String) : Option Handler :=
  mapGet srv.handlers (ToLower L path)

/-- The body of Go `Server.Handle`, without the deferred `Close`: the state
it leaves and the error it returns. -/
def handleCall (L : GoLib) (srv : Server) (w : World) (req : Request) :
    Except String (World × Option String) :=
  match resolve L srv req.Path with
  | none => .ok (w, some "no such handler")
  | some handler =>
    match Decode L req.Body handler.requestType with
    | .error e => .ok (w, some e)
    | .ok reqv =>
      let rvresults := handler.method handler.mainPointer reqv handler.responseType.zero
      let w1 : World := { w with calls := w.calls ++ [handler.Name] }
      match rvresults.2.IsNil with
      | .error p => .error p
      | .ok false =>
        match rvresults.2.assertError with
        | .error p => .error p
        | .ok msg =>
          .ok ({ w1 with rspw := (w1.rspw.Set "qrpc_code" "-1").Set "qrpc_message" msg }, none)
      | .ok true =>
        match Encode L w1.rspw rvresults.1 with
        | (rspw, some e) => .ok ({ w1 with rspw := rspw }, some e)
        | (rspw, none) => .ok ({ w1 with rspw := rspw }, none)

/-- Go `Server.Handle`: the deferred function replaces the returned error by
the error of `req.Body.Close()` when there is one. -/
def Handle (L : GoLib) (srv : Server) (w : World) (req : Request) :
    Except String (World × Option String) :=
  match handleCall L srv w req with
  | .error p => .error p
  | .ok (w1, rerr) =>
    match req.Body.closeErr with
    | some err => .ok (w1, some err)
    | none => .ok (w1, rerr)

/-- Go `Server.ServeHTTP`. -/
def ServeHTTP (L : GoLib) (srv : Server) (w : World) (req : Request) : Except String World :=
  match Handle L srv w req with
  | .error p => .error p
  | .ok (w1, some err) =>
    .ok { w1 with rspw := (w1.rspw.Set "qrpc_code" "-2").Set "qrpc_message" err }
  | .ok (w1, none) => .ok w1

/-! ## A concrete library -/

/-- The name the JSON decoder gives to the kind of a value in its errors. -/
def Json.kind : Json → String
  | .null => "null"
  | .bool _ => "bool"
  | .num _ => "number"
  | .str _ => "string"
  | .arr _ => "array"
  | .obj _ => "object"

/-- Case-insensitive comparison of a member name with a field name, on ASCII
letters. -/
def equalFold (a b : String) : Bool :=
  a.data.map Char.toLower == b.data.map Char.toLower

/-- The field an object member is decoded into: the field whose JSON name is
the member name, otherwise the first field whose JSON name matches it
ignoring case. -/
def findField (fields : List (Field × String)) (key : String) : Option Field :=
  match fields.find? fun f => f.1.Key == key with
  | some f => some f.1
  | none => (fields.find? fun f => equalFold f.1.Key key).map Prod.fst

/-- Decoding of one object member into a struct value: members that match no
field are ignored, a string is stored in its field, null has no effect and
any other value is a type error. -/
def decodeMember (name : String) (fields : List (Field × String)) (kv : String × Json) :
    Except String (List (Field × String)) :=
  match findField fields kv.1 with
  | none => .ok fields
  | some f =>
    match kv.2 with
    | .str s => .ok (fields.map fun g => if g.1 = f then (g.1, s) else g)
    | .null => .ok fields
    | j => .error ("json: cannot unmarshal " ++ j.kind ++ " into Go struct field " ++
        name ++ "." ++ f.Key ++ " of type string")

/-- JSON decoding into a fresh value of a type of the fragment
(`json.Unmarshal` rules: null leaves the zero value). -/
def unmarshal : GoType → Json → Except String GoValue
  | t, .null => .ok t.zero
  | .string, .str s => .ok (.str s)
  | .string, j => .error ("json: cannot unmarshal " ++ j.kind ++ " into Go value of type string")
  | .error, j => .error ("json: cannot unmarshal " ++ j.kind ++ " into Go value of type error")
  | .struct _ name fields, .obj kvs =>
    (kvs.foldlM (decodeMember name) (fields.map fun f => (f, ""))).map (GoValue.struct name)
  | .struct pkg name _, j =>
    .error ("json: cannot unmarshal " ++ j.kind ++ " into Go value of type " ++
      pkg ++ "." ++ name)
  | .ptr e, j => (unmarshal e j).map GoValue.ptr

/-- JSON encoding of a value of the fragment (`json.Marshal` rules; an error
made by `errors.New` has no exported field). -/
def marshal : GoValue → Except String Json
  | .str s => .ok (.str s)
  | .err none => .ok .null
  | .err (some _) => .ok (.obj [])
  | .struct _ fields => .ok (.obj (fields.map fun f => (f.1.Key, Json.str f.2)))
  | .nilptr => .ok .null
  | .ptr v => marshal v

/-- A concrete library: ASCII case mapping and the JSON rules above. -/
def goStd : GoLib :=
  { toLower := Char.toLower, unmarshal := unmarshal, marshal := marshal }

/-! ## cmd/master/master.go -/

/-- Field selection `v.f` on a struct value. -/
def GoValue.field (v : GoValue) (f : String) : String :=
  match v with
  | .struct _ fields => ((fields.find? fun g => g.1.Name = f).map Prod.snd).getD ""
  | _ => ""

/-- Field assignment `v.f = s` on a struct value. -/
def GoValue.setField (v : GoValue) (f s : String) : GoValue :=
  match v with
  | .struct name fields => .struct name (fields.map fun g => if g.1.Name = f then (g.1, s) else g)
  | w => w

/-- Go type `Master`. -/
def MasterT : GoType := .struct "master" "Master" []

/-- Go type `TestRequest`. -/
def TestRequest : GoType :=
  .struct "master" "TestRequest" [{ Name := "Hello", Key := "hello" }]

/-- Go type `TestResponse`. -/
def TestResponse : GoType :=
  .struct "master" "TestResponse" [{ Name := "Message", Key := "Message" }]

/-- Go `Master.HandleTest`. -/
def HandleTest (_ms req rsp : GoValue) : GoValue × GoValue :=
  (rsp.setField "Message" ("rsp: " ++ req.field "Hello"), .err none)

/-- Go `NewMaster()` as the interface value passed to `Register`: a pointer
to a `Master`, whose method set is `HandleTest`. -/
def NewMaster : Object :=
  { rt := some (.ptr MasterT)
    rv := .ptr (.struct "Master" [])
    methods := [{ Name := "HandleTest"
                  In := [.ptr MasterT, .ptr TestRequest, .ptr TestResponse]
                  Out := [.error]
                  Func := HandleTest }] }

/-! ## Definitions used in the statements -/

/-- The case mapping of a library agrees with the ASCII one on ASCII
characters, as `unicode.ToLower` does. -/
def AsciiLower (L : GoLib) : Prop :=
  ∀ c : Char, c.val < 128 → L.toLower c = c.toLower

/-- The case mapping of a library maps a lower-cased character to itself, as
`unicode.ToLower` does. -/
def LowerIdem (L : GoLib) : Prop :=
  ∀ c : Char, L.toLower (L.toLower c) = L.toLower c

/-- A type is a pointer type. -/
def GoType.isPtr : GoType → Bool
  | .ptr _ => true
  | _ => false

/-- The eligibility rule in the words of the specification: the name begins
with "Handle", there are exactly two arguments beyond the receiver, both
pointers, and exactly one result, of an error type. -/
def specEligible (m : Method) : Bool :=
  HasPrefix m.Name "Handle" &&
    (match m.In with
     | [_, req, rsp] => req.isPtr && rsp.isPtr
     | _ => false) &&
    (match m.Out with
     | [out] => out == GoType.error
     | _ => false)

/-- The keys of the registry. -/
def Server.keys (srv : Server) : List String :=
  srv.handlers.map Prod.fst

/-- The keys of the registry with the name of the descriptor stored under
each. -/
def Server.entries (srv : Server) : List (String × String) :=
  srv.handlers.map fun e => (e.1, e.2.Name)

/-- The descriptor `Register` builds for a method with pointer arguments. -/
def descriptor (vhTypeName : String) (rv : GoValue) (m : Method) (req rsp : GoType) : Handler :=
  { Name := vhTypeName ++ "." ++ m.Name
    method := m.Func
    mainPointer := rv
    requestType := req
    responseType := rsp }

/-- A registry populated only by `Register`: the calls are made in order on a
new server. -/
def RegisterAll (L : GoLib) (vhs : List Object) : Except String Server :=
  vhs.foldlM (Register L) NewServer

/-- A struct type `Svc` of package `main`. -/
def SvcT : GoType := .struct "main" "Svc" []

/-- A struct type `Faulty` of package `main`. -/
def FaultyT : GoType := .struct "main" "Faulty" []

/-- A service type `Svc` with a method
`HandleBad(req *TestRequest, rsp *TestResponse) string`. -/
def svcBadResult : Object :=
  { rt := some (.ptr SvcT)
    rv := .ptr (.struct "Svc" [])
    methods := [{ Name := "HandleBad"
                  In := [.ptr SvcT, .ptr TestRequest, .ptr TestResponse]
                  Out := [.string]
                  Func := fun _ _ rsp => (rsp, .str "done") }] }

/-- A service type `Svc` with a method `HandleRaw(req string, rsp string) error`. -/
def svcRawArgs : Object :=
  { rt := some (.ptr SvcT)
    rv := .ptr (.struct "Svc" [])
    methods := [{ Name := "HandleRaw"
                  In := [.ptr SvcT, .string, .string]
                  Out := [.error]
                  Func := fun _ _ rsp => (rsp, .err none) }] }

/-- The value `Master{}` passed to `Register` without taking its address: its
dynamic type is the struct type, whose method set has no `HandleTest` (the
method has a pointer receiver). -/
def masterByValue : Object :=
  { rt := some MasterT
    rv := .struct "Master" []
    methods := [] }

/-- A service type `Master` with two methods `HandleTEST` and `HandleTest`
of the shape of `HandleTest`, in the order of `Type.Method(i)`. -/
def masterTwins : Object :=
  { rt := some (.ptr MasterT)
    rv := .ptr (.struct "Master" [])
    methods := [{ Name := "HandleTEST"
                  In := [.ptr MasterT, .ptr TestRequest, .ptr TestResponse]
                  Out := [.error]
                  Func := fun _ _ rsp => (rsp.setField "Message" "upper", .err none) },
                { Name := "HandleTest"
                  In := [.ptr MasterT, .ptr TestRequest, .ptr TestResponse]
                  Out := [.error]
                  Func := HandleTest }] }

/-- A service type `Master` with two methods `HandlePing` and `HandleTest`
of the shape of `HandleTest`, in the order of `Type.Method(i)`. -/
def masterPair : Object :=
  { rt := some (.ptr MasterT)
    rv := .ptr (.struct "Master" [])
    methods := [{ Name := "HandlePing"
                  In := [.ptr MasterT, .ptr TestRequest, .ptr TestResponse]
                  Out := [.error]
                  Func := fun _ _ rsp => (rsp.setField "Message" "pong", .err none) },
                { Name := "HandleTest"
                  In := [.ptr MasterT, .ptr TestRequest, .ptr TestResponse]
                  Out := [.error]
                  Func := HandleTest }] }

/-- A service type `Faulty` whose method `HandleFail` fills its response and
returns the error `errors.New("boom")`. -/
def faulty : Object :=
  { rt := some (.ptr FaultyT)
    rv := .ptr (.struct "Faulty" [])
    methods := [{ Name := "HandleFail"
                  In := [.ptr FaultyT, .ptr TestRequest, .ptr TestResponse]
                  Out := [.error]
                  Func := fun _ _ rsp => (rsp.setField "Message" "partial", .err (some "boom")) }] }

/-- A response writer with no header and no body written, whose writes
succeed. -/
def newWriter : ResponseWriter :=
  { header := [], body := [], writeErr := none }

/-- The state at the start of a call. -/
def newWorld : World :=
  { rspw := newWriter, calls := [] }

/-- A request with a path and a body holding one JSON value, whose `Close`
succeeds. -/
def newRequest (path : String) (j : Json) : Request :=
  { Path := path, Body := { value := .ok j, closeErr := none } }

/-- The server of `master.Run`: a new server with the `Master` registered. -/
def masterServer (L : GoLib) : Except String Server :=
  Register L NewServer NewMaster

/-! ## Lemmas on strings and maps -/

theorem ToLower_append (L : GoLib) (a b : String) :
    ToLower L (a ++ b) = ToLower L a ++ ToLower L b := by
  apply String.ext
  simp [ToLower]

theorem handlePrefix_length : handlePrefix.length = 6 := by decide

theorem HasPrefix_handle (M : String) : HasPrefix ("Handle" ++ M) handlePrefix = true := by
  simp [HasPrefix, handlePrefix, String.data_append]

theorem sliceFrom_handle (M : String) : sliceFrom ("Handle" ++ M) handlePrefix.length = M := by
  rw [handlePrefix_length]
  apply String.ext
  simp [sliceFrom, String.data_append]

theorem ToLower_ascii (L : GoLib) (hL : AsciiLower L) (s : String)
    (hs : ∀ c ∈ s.data, c.val < 128) : ToLower L s = ⟨s.data.map Char.toLower⟩ := by
  apply String.ext
  simp only [ToLower]
  exact List.map_congr_left fun c hc => hL c (hs c hc)

theorem ToLower_idem (L : GoLib) (hL : LowerIdem L) (s : String) :
    ToLower L (ToLower L s) = ToLower L s := by
  apply String.ext
  simp only [ToLower, List.map_map]
  exact List.map_congr_left fun c _ => hL c

theorem goStd_asciiLower : AsciiLower goStd := fun _ _ => rfl

theorem goStd_lowerIdem : LowerIdem goStd := by
  intro c
  show c.toLower.toLower = c.toLower
  by_cases h : 65 ≤ c.toNat ∧ c.toNat ≤ 90
  · have hc : c = Char.ofNat c.toNat := by
      simp [Char.ofNat_toNat]
    obtain ⟨h1, h2⟩ := h
    generalize c.toNat = n at hc h1 h2
    subst hc
    interval_cases n <;> decide
  · have hfix : c.toLower = c := by
      unfold Char.toLower
      simp only [ge_iff_le]
      rw [if_neg h]
    rw [hfix, hfix]

theorem mapGet_mapSet_self (hs : List (String × Handler)) (k : String) (v : Handler) :
    mapGet (mapSet hs k v) k = some v := by
  simp [mapGet, mapSet]

theorem find_filter_ne (hs : List (String × Handler)) (k j : String) (hne : j ≠ k) :
    (hs.filter fun e => e.1 ≠ k).find? (fun e => e.1 = j) = hs.find? (fun e => e.1 = j) := by
  rw [List.find?_filter]
  congr 1
  funext e
  by_cases hj : e.1 = j
  · have hk : ¬ e.1 = k := fun h => hne (hj ▸ h)
    simp [hj, hk, hne]
  · simp [hj]

theorem mapGet_mapSet_ne (hs : List (String × Handler)) (k j : String) (v : Handler)
    (hne : j ≠ k) : mapGet (mapSet hs k v) j = mapGet hs j := by
  have hkj : ¬ k = j := fun h => hne h.symm
  simp only [mapGet, mapSet, List.find?, hkj, decide_False]
  rw [find_filter_ne hs k j hne]

theorem mapGet_eq_none_iff (hs : List (String × Handler)) (k : String) :
    mapGet hs k = none ↔ k ∉ hs.map Prod.fst := by
  simp only [mapGet, Option.map_eq_none', List.find?_eq_none, decide_eq_true_eq, List.mem_map,
    not_exists, not_and]

theorem mem_keys_mapSet (hs : List (String × Handler)) (k j : String) (v : Handler) :
    j ∈ (mapSet hs k v).map Prod.fst ↔ j = k ∨ j ∈ hs.map Prod.fst := by
  simp only [mapSet, List.map_cons, List.mem_cons, List.mem_map, List.mem_filter,
    decide_eq_true_eq]
  constructor
  · rintro (h | ⟨e, ⟨he, _⟩, rfl⟩)
    · exact Or.inl h
    · exact Or.inr ⟨e, he, rfl⟩
  · rintro (h | ⟨e, he, rfl⟩)
    · exact Or.inl h
    · by_cases hk : e.1 = k
      · exact Or.inl hk
      · exact Or.inr ⟨e, ⟨he, hk⟩, rfl⟩

theorem nodup_keys_mapSet (hs : List (String × Handler)) (k : String) (v : Handler)
    (hn : (hs.map Prod.fst).Nodup) : ((mapSet hs k v).map Prod.fst).Nodup := by
  simp only [mapSet, List.map_cons, List.nodup_cons]
  constructor
  · simp only [List.mem_map, List.mem_filter, decide_eq_true_eq, not_exists, not_and]
    rintro e ⟨_, hk⟩ rfl
    exact hk rfl
  · exact (hn.sublist ((List.filter_sublist hs).map Prod.fst))

/-! ## Lemmas on `Register` -/

theorem eligible_iff (m : Method) :
    eligible m = true ↔
      HasPrefix m.Name handlePrefix = true ∧ m.In.length = 3 ∧ m.Out.length = 1 := by
  simp [eligible, Method.NumIn, Method.NumOut, and_assoc]

theorem registerMethod_skip (L : GoLib) (T kp : String) (rv : GoValue) (srv : Server)
    (m : Method) (h : eligible m = false) : registerMethod L T kp rv srv m = .ok srv := by
  have h1 : (!HasPrefix m.Name handlePrefix || m.NumIn != 3 || m.NumOut != 1) = true := by
    unfold eligible at h
    revert h
    cases (!HasPrefix m.Name handlePrefix || m.NumIn != 3 || m.NumOut != 1) <;> simp
  simp only [registerMethod, h1, if_true]

theorem registerMethod_insert (L : GoLib) (T kp : String) (rv : GoValue) (srv : Server)
    (m : Method) (recv req rsp : GoType) (h : eligible m = true)
    (hin : m.In = [recv, .ptr req, .ptr rsp]) :
    registerMethod L T kp rv srv m =
      .ok { handlers := mapSet srv.handlers (hkey L kp m) (descriptor T rv m req rsp) } := by
  have h1 : (!HasPrefix m.Name handlePrefix || m.NumIn != 3 || m.NumOut != 1) = false := by
    unfold eligible at h
    revert h
    cases (!HasPrefix m.Name handlePrefix || m.NumIn != 3 || m.NumOut != 1) <;> simp
  simp [registerMethod, h1, Method.InAt, hin, GoType.Elem, descriptor, bind, Except.bind]

theorem Register_ptr (L : GoLib) (srv : Server) (vh : Object) (elem : GoType)
    (hrt : vh.rt = some (.ptr elem)) :
    Register L srv vh =
      vh.methods.foldlM (registerMethod L elem.Name (keyPrefixOf L elem.Name) vh.rv) srv := by
  simp [Register, hrt, GoType.Elem, bind, Except.bind]

theorem hkey_handle (L : GoLib) (T M : String) (m : Method) (hname : m.Name = "Handle" ++ M) :
    hkey L (keyPrefixOf L T) m = "/qrpc/" ++ ToLower L T ++ "/" ++ ToLower L M := by
  rw [hkey, hname, sliceFrom_handle, keyPrefixOf]

theorem registerMethod_inv (L : GoLib) (T kp : String) (rv : GoValue) (s s1 : Server)
    (m : Method) (h : registerMethod L T kp rv s m = .ok s1) :
    (eligible m = false ∧ s1 = s) ∨
      (eligible m = true ∧ ∃ recv req rsp, m.In = [recv, .ptr req, .ptr rsp] ∧
        s1 = { handlers := mapSet s.handlers (hkey L kp m) (descriptor T rv m req rsp) }) := by
  cases hel : eligible m with
  | false =>
    rw [registerMethod_skip L T kp rv s m hel] at h
    exact Or.inl ⟨rfl, (Except.ok.inj h).symm⟩
  | true =>
    right
    refine ⟨rfl, ?_⟩
    have h3 : m.In.length = 3 := ((eligible_iff m).mp hel).2.1
    obtain ⟨a, b, c, hin⟩ : ∃ a b c, m.In = [a, b, c] := by
      match hm : m.In, h3 with
      | [a, b, c], _ => exact ⟨a, b, c, rfl⟩
    have h1 : (!HasPrefix m.Name handlePrefix || m.NumIn != 3 || m.NumOut != 1) = false := by
      unfold eligible at hel
      revert hel
      cases (!HasPrefix m.Name handlePrefix || m.NumIn != 3 || m.NumOut != 1) <;> simp
    cases b <;> cases c <;>
      simp [registerMethod, h1, Method.InAt, hin, GoType.Elem, bind, Except.bind] at h
    rename_i req rsp
    exact ⟨a, req, rsp, hin, by rw [← h]; rfl⟩

theorem fold_cons_ok (L : GoLib) (T kp : String) (rv : GoValue) (s s2 : Server) (m : Method)
    (ms : List Method)
    (h : (m :: ms).foldlM (registerMethod L T kp rv) s = .ok s2) :
    ∃ s1, registerMethod L T kp rv s m = .ok s1 ∧
      ms.foldlM (registerMethod L T kp rv) s1 = .ok s2 := by
  rw [List.foldlM_cons] at h
  cases hr : registerMethod L T kp rv s m with
  | error e => rw [hr] at h; cases h
  | ok s1 => rw [hr] at h; exact ⟨s1, rfl, h⟩

theorem fold_ok (L : GoLib) (T kp : String) (rv : GoValue) (ms : List Method)
    (H : ∀ m ∈ ms, eligible m = true → ∃ recv req rsp, m.In = [recv, .ptr req, .ptr rsp])
    (s : Server) : ∃ s1, ms.foldlM (registerMethod L T kp rv) s = .ok s1 := by
  induction ms generalizing s with
  | nil => exact ⟨s, rfl⟩
  | cons m ms ih =>
    have ih1 := ih fun x hx => H x (List.mem_cons_of_mem m hx)
    rw [List.foldlM_cons]
    cases hel : eligible m with
    | false =>
      rw [registerMethod_skip L T kp rv s m hel]
      exact ih1 s
    | true =>
      obtain ⟨recv, req, rsp, hin⟩ := H m (List.mem_cons_self m ms) hel
      rw [registerMethod_insert L T kp rv s m recv req rsp hel hin]
      exact ih1 _

theorem fold_keys (L : GoLib) (T kp : String) (rv : GoValue) (ms : List Method) (s s2 : Server)
    (h : ms.foldlM (registerMethod L T kp rv) s = .ok s2) (k : String) :
    k ∈ s2.keys ↔ k ∈ s.keys ∨ ∃ m ∈ ms, eligible m = true ∧ hkey L kp m = k := by
  induction ms generalizing s with
  | nil =>
    cases h
    simp
  | cons m ms ih =>
    obtain ⟨s1, h1, h2⟩ := fold_cons_ok L T kp rv s s2 m ms h
    rw [ih s1 h2]
    rcases registerMethod_inv L T kp rv s s1 m h1 with ⟨hel, rfl⟩ | ⟨hel, _, req, rsp, _, rfl⟩
    · simp [hel]
    · simp only [Server.keys, mem_keys_mapSet, List.mem_cons, exists_eq_or_imp, hel, true_and]
      constructor
      · rintro ((hk | hk) | hk)
        · exact Or.inr (Or.inl hk.symm)
        · exact Or.inl hk
        · exact Or.inr (Or.inr hk)
      · rintro (hk | hk | hk)
        · exact Or.inl (Or.inr hk)
        · exact Or.inl (Or.inl hk.symm)
        · exact Or.inr hk

theorem fold_nodup (L : GoLib) (T kp : String) (rv : GoValue) (ms : List Method)
    (s s2 : Server) (h : ms.foldlM (registerMethod L T kp rv) s = .ok s2)
    (hn : s.keys.Nodup) : s2.keys.Nodup := by
  induction ms generalizing s with
  | nil => cases h; exact hn
  | cons m ms ih =>
    obtain ⟨s1, h1, h2⟩ := fold_cons_ok L T kp rv s s2 m ms h
    apply ih s1 h2
    rcases registerMethod_inv L T kp rv s s1 m h1 with ⟨_, rfl⟩ | ⟨_, _, req, rsp, _, rfl⟩
    · exact hn
    · exact nodup_keys_mapSet s.handlers _ _ hn

theorem fold_get_ne (L : GoLib) (T kp : String) (rv : GoValue) (ms : List Method)
    (s s2 : Server) (h : ms.foldlM (registerMethod L T kp rv) s = .ok s2) (k : String)
    (hk : ∀ m ∈ ms, eligible m = true → hkey L kp m ≠ k) :
    mapGet s2.handlers k = mapGet s.handlers k := by
  induction ms generalizing s with
  | nil => cases h; rfl
  | cons m ms ih =>
    obtain ⟨s1, h1, h2⟩ := fold_cons_ok L T kp rv s s2 m ms h
    rw [ih s1 h2 fun x hx => hk x (List.mem_cons_of_mem m hx)]
    rcases registerMethod_inv L T kp rv s s1 m h1 with ⟨_, rfl⟩ | ⟨hel, _, req, rsp, _, rfl⟩
    · rfl
    · exact mapGet_mapSet_ne s.handlers _ k _ fun e => hk m (List.mem_cons_self m ms) hel e.symm

theorem foldlM_append_ok {α β : Type} (f : β → α → Except String β) (a b : List α)
    (s s2 : β) (h : (a ++ b).foldlM f s = .ok s2) :
    ∃ s1, a.foldlM f s = .ok s1 ∧ b.foldlM f s1 = .ok s2 := by
  rw [List.foldlM_append] at h
  cases hr : a.foldlM f s with
  | error e => rw [hr] at h; cases h
  | ok s1 => rw [hr] at h; exact ⟨s1, rfl, h⟩

theorem Register_inv (L : GoLib) (s s1 : Server) (o : Object) (h : Register L s o = .ok s1) :
    ∃ e, o.rt = some (.ptr e) ∧
      o.methods.foldlM (registerMethod L e.Name (keyPrefixOf L e.Name) o.rv) s = .ok s1 := by
  cases hrt : o.rt with
  | none => simp [Register, hrt] at h
  | some t =>
    cases t with
    | ptr e => exact ⟨e, rfl, by rw [← Register_ptr L s o e hrt]; exact h⟩
    | string => simp [Register, hrt, GoType.Elem, bind, Except.bind] at h
    | error => simp [Register, hrt, GoType.Elem, bind, Except.bind] at h
    | struct q n fs => simp [Register, hrt, GoType.Elem, bind, Except.bind] at h

theorem all_get_ne (L : GoLib) (objs : List Object) (s s2 : Server)
    (h : objs.foldlM (Register L) s = .ok s2) (k : String)
    (hk : ∀ o ∈ objs, ∀ e, o.rt = some (.ptr e) → ∀ x ∈ o.methods, eligible x = true →
      hkey L (keyPrefixOf L e.Name) x ≠ k) :
    mapGet s2.handlers k = mapGet s.handlers k := by
  induction objs generalizing s with
  | nil => cases h; rfl
  | cons o objs ih =>
    rw [List.foldlM_cons] at h
    cases hr : Register L s o with
    | error e => rw [hr] at h; cases h
    | ok s1 =>
      rw [hr] at h
      rw [ih s1 h fun x hx => hk x (List.mem_cons_of_mem o hx)]
      obtain ⟨e, hrt, hf⟩ := Register_inv L s s1 o hr
      exact fold_get_ne L _ _ _ _ _ _ hf k (hk o (List.mem_cons_self o objs) e hrt)

theorem ToLower_root (L : GoLib) (hA : AsciiLower L) : ToLower L "/qrpc/" = "/qrpc/" := by
  rw [ToLower_ascii L hA _ (by decide)]; decide

theorem ToLower_slash (L : GoLib) (hA : AsciiLower L) : ToLower L "/" = "/" := by
  rw [ToLower_ascii L hA _ (by decide)]; decide

theorem ToLower_path (L : GoLib) (hA : AsciiLower L) (T M : String) :
    ToLower L ("/qrpc/" ++ T ++ "/" ++ M) = "/qrpc/" ++ ToLower L T ++ "/" ++ ToLower L M := by
  rw [ToLower_append, ToLower_append, ToLower_append, ToLower_root L hA, ToLower_slash L hA]

theorem hkey_lower (L : GoLib) (hA : AsciiLower L) (hI : LowerIdem L) (T : String)
    (m : Method) :
    ToLower L (hkey L (keyPrefixOf L T) m) = hkey L (keyPrefixOf L T) m := by
  rw [hkey, keyPrefixOf, ToLower_path L hA, ToLower_idem L hI, ToLower_idem L hI]

theorem all_keys_lower (L : GoLib) (hA : AsciiLower L) (hI : LowerIdem L) (objs : List Object)
    (s s2 : Server) (h : objs.foldlM (Register L) s = .ok s2)
    (hs : ∀ k ∈ s.keys, ToLower L k = k) : ∀ k ∈ s2.keys, ToLower L k = k := by
  induction objs generalizing s with
  | nil => cases h; exact hs
  | cons o objs ih =>
    rw [List.foldlM_cons] at h
    cases hr : Register L s o with
    | error e => rw [hr] at h; cases h
    | ok s1 =>
      rw [hr] at h
      apply ih s1 h
      obtain ⟨e, _, hf⟩ := Register_inv L s s1 o hr
      intro k hk
      rcases (fold_keys L _ _ _ _ _ _ hf k).mp hk with hk0 | ⟨m, _, _, rfl⟩
      · exact hs k hk0
      · exact hkey_lower L hA hI e.Name m

/-! ## Claims on `Register` -/

/-- C2: a method named "Handle"+M that passes the guard of `Register` and has
pointer arguments is inserted under the key
"/qrpc/" + lowercase(T) + "/" + lowercase(M), with a descriptor named
T + "." + "Handle"+M, where T is the name of the type the registered pointer
points to and `Register` runs the loop body over the method set; the `Master`
type with its method `HandleTest` gets the single key /qrpc/master/test. -/
theorem C2_register_key_and_name (L : GoLib) (T M : String) (rv : GoValue) (srv : Server)
    (m : Method) (recv req rsp : GoType)
    (hname : m.Name = "Handle" ++ M)
    (hin : m.In = [recv, .ptr req, .ptr rsp]) (hout : m.NumOut = 1) :
    registerMethod L T (keyPrefixOf L T) rv srv m =
        .ok { handlers := mapSet srv.handlers ("/qrpc/" ++ ToLower L T ++ "/" ++ ToLower L M)
                { Name := T ++ "." ++ ("Handle" ++ M)
                  method := m.Func
                  mainPointer := rv
                  requestType := req
                  responseType := rsp } } ∧
      (∀ (vh : Object) (elem : GoType), vh.rt = some (.ptr elem) → elem.Name = T →
        Register L srv vh =
          vh.methods.foldlM (registerMethod L T (keyPrefixOf L T) vh.rv) srv) ∧
      (AsciiLower L →
        (Register L NewServer NewMaster).map Server.entries =
          .ok [("/qrpc/master/test", "Master.HandleTest")]) := by
  have hel : eligible m = true := by
    rw [eligible_iff, hname, HasPrefix_handle, hin]
    exact ⟨rfl, rfl, hout⟩
  refine ⟨?_, ?_, ?_⟩
  · rw [registerMethod_insert L T _ rv srv m recv req rsp hel hin, hkey_handle L T M m hname,
      descriptor, hname]
  · intro vh elem hrt hT
    rw [Register_ptr L srv vh elem hrt, hT]
  · intro hL
    have h1 : ToLower L "Master" = "master" := by
      rw [ToLower_ascii L hL _ (by decide)]; decide
    have h2 : ToLower L "Test" = "test" := by
      rw [ToLower_ascii L hL _ (by decide)]; decide
    have hk : ∀ m : Method, m.Name = "HandleTest" →
        hkey L (keyPrefixOf L "Master") m = "/qrpc/master/test" := by
      intro m hm
      rw [hkey_handle L "Master" "Test" m hm, h1, h2]; decide
    rw [Register_ptr L NewServer NewMaster MasterT rfl]
    simp only [NewMaster, List.foldlM, MasterT, GoType.Name]
    rw [registerMethod_insert L _ _ _ _ _ (.ptr MasterT) TestRequest TestResponse (by decide) rfl,
      hk _ rfl]
    rfl

/-- Witness of C2: the `HandleTest` method of `Master`. -/
theorem C2_register_key_and_name_witness :
    (Register goStd NewServer NewMaster).map Server.entries =
      .ok [("/qrpc/master/test", "Master.HandleTest")] :=
  (C2_register_key_and_name goStd "Master" "Test" (.ptr (.struct "Master" [])) NewServer
    { Name := "HandleTest"
      In := [.ptr MasterT, .ptr TestRequest, .ptr TestResponse]
      Out := [.error]
      Func := HandleTest }
    (.ptr MasterT) TestRequest TestResponse (by decide) rfl rfl).2.2 goStd_asciiLower

/-- C3, the code at the failing input: the method
`HandleBad(req *TestRequest, rsp *TestResponse) string` of `svcBadResult` does
not return an error, so it is not of the shape the claim requires; `Register`
inserts an entry for it all the same, under /qrpc/svc/bad, and a call to that
path whose body decodes invokes the method and panics in `IsNil`. -/
theorem C3_register_inserts_non_error :
    svcBadResult.methods.map specEligible = [false] ∧
      (Register goStd NewServer svcBadResult).map Server.entries =
        .ok [("/qrpc/svc/bad", "Svc.HandleBad")] ∧
      ((Register goStd NewServer svcBadResult).bind fun srv =>
        ServeHTTP goStd srv newWorld (newRequest "/qrpc/svc/bad" (.obj []))).map
          (fun w => w.calls) =
        .error "reflect: call of reflect.Value.IsNil on string Value" :=
  ⟨by decide, rfl, rfl⟩

/-- C10, the code at the failing inputs: `Register` panics in `Type.Elem` on
an object with a method `HandleRaw(req string, rsp string) error`, which
passes the guard, and on a `Master` passed by value. -/
theorem C10_register_panics :
    Register goStd NewServer svcRawArgs = .error "reflect: Elem of invalid type string" ∧
      eligible { Name := "HandleRaw"
                 In := [.ptr SvcT, .string, .string]
                 Out := [.error]
                 Func := fun _ _ rsp => (rsp, .err none) } = true ∧
      Register goStd NewServer masterByValue =
        .error "reflect: Elem of invalid type master.Master" :=
  ⟨rfl, by decide, rfl⟩

/-- C8, counterexample: the two methods `HandleTEST` and `HandleTest` of
`masterTwins` both pass the guard and derive the same path, so the registry
has one key for two eligible methods. -/
theorem C8_counterexample :
    (masterTwins.methods.filter eligible).length = 2 ∧
      (Register goStd NewServer masterTwins).map Server.keys = .ok ["/qrpc/master/test"] :=
  ⟨by decide, rfl⟩

/-- C8, amended: for a pointer to a service object whose eligible methods
have pointer arguments, `Register` on a new server returns a registry whose
keys are exactly the paths derived from the eligible methods, without
repetition; there are at most as many keys as eligible methods, and exactly
as many when the eligible methods derive pairwise distinct paths; under the
path of an eligible method that no later eligible method derives too, the
registry holds the descriptor of that method. -/
theorem C8_register_entries (L : GoLib) (vh : Object) (elem : GoType)
    (hrt : vh.rt = some (.ptr elem))
    (H : ∀ m ∈ vh.methods, eligible m = true →
      ∃ recv req rsp, m.In = [recv, .ptr req, .ptr rsp]) :
    ∃ srv, Register L NewServer vh = .ok srv ∧
      (∀ k, k ∈ srv.keys ↔
        ∃ m ∈ vh.methods, eligible m = true ∧ hkey L (keyPrefixOf L elem.Name) m = k) ∧
      srv.keys.Nodup ∧
      srv.keys.length ≤ (vh.methods.filter eligible).length ∧
      (((vh.methods.filter eligible).map (hkey L (keyPrefixOf L elem.Name))).Nodup →
        srv.keys.length = (vh.methods.filter eligible).length) ∧
      (∀ (pre post : List Method) (m : Method) (recv req rsp : GoType),
        vh.methods = pre ++ m :: post → eligible m = true →
        m.In = [recv, .ptr req, .ptr rsp] →
        (∀ x ∈ post, eligible x = true →
          hkey L (keyPrefixOf L elem.Name) x ≠ hkey L (keyPrefixOf L elem.Name) m) →
        mapGet srv.handlers (hkey L (keyPrefixOf L elem.Name) m) =
          some (descriptor elem.Name vh.rv m req rsp)) := by
  obtain ⟨srv, hsrv⟩ := fold_ok L elem.Name (keyPrefixOf L elem.Name) vh.rv vh.methods H NewServer
  have hkeys : ∀ k, k ∈ srv.keys ↔
      ∃ m ∈ vh.methods, eligible m = true ∧ hkey L (keyPrefixOf L elem.Name) m = k := by
    intro k
    rw [fold_keys L _ _ _ _ _ _ hsrv k]
    simp [Server.keys, NewServer]
  have hnd : srv.keys.Nodup :=
    fold_nodup L _ _ _ _ _ _ hsrv (by simp [Server.keys, NewServer])
  have hset : srv.keys.toFinset =
      ((vh.methods.filter eligible).map (hkey L (keyPrefixOf L elem.Name))).toFinset := by
    ext k
    simp only [List.mem_toFinset, hkeys, List.mem_map, List.mem_filter]
    constructor
    · rintro ⟨m, hm, hel, rfl⟩
      exact ⟨m, ⟨hm, hel⟩, rfl⟩
    · rintro ⟨m, ⟨hm, hel⟩, rfl⟩
      exact ⟨m, hm, hel, rfl⟩
  have hcard : srv.keys.length =
      ((vh.methods.filter eligible).map (hkey L (keyPrefixOf L elem.Name))).toFinset.card := by
    rw [← hset, List.toFinset_card_of_nodup hnd]
  refine ⟨srv, ?_, hkeys, hnd, ?_, ?_, ?_⟩
  · rw [Register_ptr L NewServer vh elem hrt, hsrv]
  · rw [hcard]
    exact (List.toFinset_card_le _).trans (by simp)
  · intro hn
    rw [hcard, List.toFinset_card_of_nodup hn, List.length_map]
  · intro pre post m recv req rsp hms hel hin hpost
    rw [hms] at hsrv
    obtain ⟨sa, _, h2⟩ := foldlM_append_ok _ pre (m :: post) NewServer srv hsrv
    obtain ⟨sb, h3, h4⟩ := fold_cons_ok L _ _ _ sa srv m post h2
    rw [registerMethod_insert L _ _ _ sa m recv req rsp hel hin] at h3
    rw [fold_get_ne L _ _ _ post sb srv h4 _ hpost, ← Except.ok.inj h3]
    exact mapGet_mapSet_self _ _ _

/-- Witness of C8 (amended): the two methods `HandlePing` and `HandleTest` of
`masterPair` derive distinct paths, the registry has two keys and holds the
descriptor of `HandlePing` under /qrpc/master/ping. -/
theorem C8_register_entries_witness :
    ((masterPair.methods.filter eligible).map
        (hkey goStd (keyPrefixOf goStd MasterT.Name))).Nodup ∧
      ∃ srv, Register goStd NewServer masterPair = .ok srv ∧
        srv.keys.Nodup ∧
        srv.keys.length = 2 ∧
        (mapGet srv.handlers "/qrpc/master/ping").map Handler.Name =
          some "Master.HandlePing" := by
  have hnd : ((masterPair.methods.filter eligible).map
      (hkey goStd (keyPrefixOf goStd MasterT.Name))).Nodup := by decide
  obtain ⟨srv, hreg, _, hn, _, heq, hdesc⟩ :=
    C8_register_entries goStd masterPair MasterT rfl (by
      intro m hm _
      simp only [masterPair, List.mem_cons, List.mem_singleton, List.not_mem_nil,
        or_false] at hm
      rcases hm with rfl | rfl <;> exact ⟨_, _, _, rfl⟩)
  refine ⟨hnd, srv, hreg, hn, (heq hnd).trans (by decide), ?_⟩
  have h := hdesc [] [{ Name := "HandleTest"
                        In := [.ptr MasterT, .ptr TestRequest, .ptr TestResponse]
                        Out := [.error]
                        Func := HandleTest }]
    { Name := "HandlePing"
      In := [.ptr MasterT, .ptr TestRequest, .ptr TestResponse]
      Out := [.error]
      Func := fun _ _ rsp => (rsp.setField "Message" "pong", .err none) }
    (.ptr MasterT) TestRequest TestResponse rfl (by decide) rfl (by
      intro x hx _
      simp only [List.mem_singleton] at hx
      subst hx
      decide)
  have hk : hkey goStd (keyPrefixOf goStd MasterT.Name)
      { Name := "HandlePing"
        In := [.ptr MasterT, .ptr TestRequest, .ptr TestResponse]
        Out := [.error]
        Func := fun _ _ rsp => (rsp.setField "Message" "pong", .err none) } =
      "/qrpc/master/ping" := by decide
  rw [hk] at h
  rw [h]
  rfl

/-- C7, counterexample: `HandleTEST` of `masterTwins` is registered from type
`Master`, and the path "/qrpc/Master/TEST" is resolved to the descriptor of
`HandleTest`, which was registered after it under the same key. -/
theorem C7_counterexample :
    masterTwins.methods.map (fun m => (m.Name, eligible m)) =
        [("Handle" ++ "TEST", true), ("HandleTest", true)] ∧
      (RegisterAll goStd [masterTwins]).map
          (fun srv => (resolve goStd srv ("/qrpc/" ++ "Master" ++ "/" ++ "TEST")).map
            Handler.Name) =
        .ok (some "Master.HandleTest") ∧
      "Master.HandleTest" ≠ "Master" ++ "." ++ ("Handle" ++ "TEST") :=
  ⟨by decide, rfl, by decide⟩

/-- C7, amended: in a registry populated only by `Register`, for a method
"Handle"+M registered from a pointer to type T, such that no eligible method
registered after it (later in the same method set, or by a later call of
`Register`) derives the same key, every path whose lowercase form is that of
"/qrpc/"+T+"/"+M is resolved by `Handle` to the descriptor of that method; and
every key of the registry is its own lowercase form. -/
theorem C7_lookup_ignores_case (L : GoLib) (hA : AsciiLower L) (hI : LowerIdem L)
    (before after : List Object) (vh : Object) (elem : GoType) (srv : Server)
    (pre post : List Method) (m : Method) (M p : String) (recv req rsp : GoType)
    (hreg : RegisterAll L (before ++ vh :: after) = .ok srv)
    (hrt : vh.rt = some (.ptr elem))
    (hms : vh.methods = pre ++ m :: post)
    (hname : m.Name = "Handle" ++ M)
    (hin : m.In = [recv, .ptr req, .ptr rsp]) (hout : m.NumOut = 1)
    (hpost : ∀ x ∈ post, eligible x = true →
      hkey L (keyPrefixOf L elem.Name) x ≠ hkey L (keyPrefixOf L elem.Name) m)
    (hafter : ∀ o ∈ after, ∀ e, o.rt = some (.ptr e) → ∀ x ∈ o.methods, eligible x = true →
      hkey L (keyPrefixOf L e.Name) x ≠ hkey L (keyPrefixOf L elem.Name) m)
    (hp : ToLower L p = ToLower L ("/qrpc/" ++ elem.Name ++ "/" ++ M)) :
    resolve L srv p = some (descriptor elem.Name vh.rv m req rsp) ∧
      ∀ k ∈ srv.keys, ToLower L k = k := by
  have hel : eligible m = true := by
    rw [eligible_iff, hname, HasPrefix_handle, hin]
    exact ⟨rfl, rfl, hout⟩
  refine ⟨?_, all_keys_lower L hA hI _ _ _ hreg (by simp [Server.keys, NewServer])⟩
  obtain ⟨s0, _, h1⟩ := foldlM_append_ok (Register L) before (vh :: after) NewServer srv hreg
  rw [List.foldlM_cons] at h1
  cases hr : Register L s0 vh with
  | error e => rw [hr] at h1; cases h1
  | ok s1 =>
    rw [hr] at h1
    rw [Register_ptr L s0 vh elem hrt, hms] at hr
    obtain ⟨sa, _, h2⟩ := foldlM_append_ok _ pre (m :: post) s0 s1 hr
    obtain ⟨sb, h3, h4⟩ := fold_cons_ok L _ _ _ sa s1 m post h2
    rw [registerMethod_insert L _ _ _ sa m recv req rsp hel hin] at h3
    have hsb := Except.ok.inj h3
    rw [resolve, hp, ToLower_path L hA, ← hkey_handle L elem.Name M m hname,
      all_get_ne L after s1 srv h1 _ hafter, fold_get_ne L _ _ _ post sb s1 h4 _ hpost, ← hsb]
    exact mapGet_mapSet_self _ _ _

/-- Witness of C7 (amended): the `Master` of `master.Run` and the path
/QRPC/Master/TEST. -/
theorem C7_lookup_ignores_case_witness :
    resolve goStd
        { handlers := [("/qrpc/master/test",
            descriptor "Master" NewMaster.rv
              { Name := "HandleTest"
                In := [.ptr MasterT, .ptr TestRequest, .ptr TestResponse]
                Out := [.error]
                Func := HandleTest } TestRequest TestResponse)] }
        "/QRPC/Master/TEST" =
      some (descriptor MasterT.Name NewMaster.rv
        { Name := "HandleTest"
          In := [.ptr MasterT, .ptr TestRequest, .ptr TestResponse]
          Out := [.error]
          Func := HandleTest } TestRequest TestResponse) ∧
      ∀ k ∈ Server.keys
        { handlers := [("/qrpc/master/test",
            descriptor "Master" NewMaster.rv
              { Name := "HandleTest"
                In := [.ptr MasterT, .ptr TestRequest, .ptr TestResponse]
                Out := [.error]
                Func := HandleTest } TestRequest TestResponse)] },
        ToLower goStd k = k :=
  C7_lookup_ignores_case goStd goStd_asciiLower goStd_lowerIdem [] [] NewMaster MasterT _
    [] [] _ "Test" "/QRPC/Master/TEST" (.ptr MasterT) TestRequest TestResponse
    rfl rfl rfl (by decide) rfl rfl
    (fun _ hx => absurd hx (List.not_mem_nil _))
    (fun _ ho => absurd ho (List.not_mem_nil _))
    (by decide)

/-! ## Lemmas on `Handle` and `ServeHTTP` -/

theorem Get_code_Set (w : ResponseWriter) (c msg : String) :
    ((w.Set "qrpc_code" c).Set "qrpc_message" msg).Get "qrpc_code" = some c := by
  simp [ResponseWriter.Get, ResponseWriter.Set]

theorem Get_message_Set (w : ResponseWriter) (c msg : String) :
    ((w.Set "qrpc_code" c).Set "qrpc_message" msg).Get "qrpc_message" = some msg := by
  simp [ResponseWriter.Get, ResponseWriter.Set]

theorem handleCall_unknown (L : GoLib) (srv : Server) (w : World) (req : Request)
    (h : resolve L srv req.Path = none) :
    handleCall L srv w req = .ok (w, some "no such handler") := by
  simp only [handleCall, h]

theorem handleCall_decode_error (L : GoLib) (srv : Server) (w : World) (req : Request)
    (hd : Handler) (e : String) (h : resolve L srv req.Path = some hd)
    (hdec : Decode L req.Body hd.requestType = .error e) :
    handleCall L srv w req = .ok (w, some e) := by
  simp only [handleCall, h, hdec]

theorem handleCall_handler_error (L : GoLib) (srv : Server) (w : World) (req : Request)
    (hd : Handler) (reqv rsp : GoValue) (e : String)
    (h : resolve L srv req.Path = some hd)
    (hdec : Decode L req.Body hd.requestType = .ok reqv)
    (hcall : hd.method hd.mainPointer reqv hd.responseType.zero = (rsp, .err (some e))) :
    handleCall L srv w req =
      .ok ({ rspw := (w.rspw.Set "qrpc_code" "-1").Set "qrpc_message" e
             calls := w.calls ++ [hd.Name] }, none) := by
  simp only [handleCall, h, hdec, hcall, GoValue.IsNil, GoValue.assertError]

theorem Handle_of_handleCall (L : GoLib) (srv : Server) (w w1 : World) (req : Request)
    (rerr : Option String) (h : handleCall L srv w req = .ok (w1, rerr)) :
    Handle L srv w req =
      .ok (w1, match req.Body.closeErr with
                | some err => some err
                | none => rerr) := by
  simp only [Handle, h]
  cases req.Body.closeErr <;> rfl

theorem ServeHTTP_of_Handle_error (L : GoLib) (srv : Server) (w w1 : World) (req : Request)
    (err : String) (h : Handle L srv w req = .ok (w1, some err)) :
    ServeHTTP L srv w req =
      .ok { w1 with rspw := (w1.rspw.Set "qrpc_code" "-2").Set "qrpc_message" err } := by
  simp only [ServeHTTP, h]

theorem ServeHTTP_of_Handle_nil (L : GoLib) (srv : Server) (w w1 : World) (req : Request)
    (h : Handle L srv w req = .ok (w1, none)) : ServeHTTP L srv w req = .ok w1 := by
  simp only [ServeHTTP, h]

theorem Encode_body (L : GoLib) (rspw : ResponseWriter) (v : GoValue) :
    (Encode L rspw v).2 ≠ none → (Encode L rspw v).1 = rspw := by
  unfold Encode
  cases L.marshal v with
  | error e => intro _; rfl
  | ok out =>
    unfold ResponseWriter.Write
    cases rspw.writeErr with
    | none => intro h; exact absurd rfl h
    | some e => intro _; rfl

theorem handleCall_inv (L : GoLib) (srv : Server) (w w1 : World) (req : Request)
    (rerr : Option String) (h : handleCall L srv w req = .ok (w1, rerr)) :
    w1 = w ∨
      ∃ hd reqv, resolve L srv req.Path = some hd ∧
        Decode L req.Body hd.requestType = .ok reqv ∧
        w1.calls = w.calls ++ [hd.Name] ∧
        (rerr = none ∨
          rerr = (Encode L w.rspw (hd.method hd.mainPointer reqv hd.responseType.zero).1).2) := by
  cases hres : resolve L srv req.Path with
  | none =>
    simp only [handleCall, hres] at h
    exact Or.inl (congrArg Prod.fst (Except.ok.inj h)).symm
  | some hd =>
    cases hdec : Decode L req.Body hd.requestType with
    | error e =>
      simp only [handleCall, hres, hdec] at h
      exact Or.inl (congrArg Prod.fst (Except.ok.inj h)).symm
    | ok reqv =>
      simp only [handleCall, hres, hdec] at h
      right
      refine ⟨hd, reqv, rfl, hdec, ?_⟩
      cases hnil : (hd.method hd.mainPointer reqv hd.responseType.zero).2.IsNil with
      | error e => rw [hnil] at h; cases h
      | ok b =>
        rw [hnil] at h
        cases b with
        | false =>
          simp only at h
          cases hass : (hd.method hd.mainPointer reqv hd.responseType.zero).2.assertError with
          | error e => rw [hass] at h; cases h
          | ok msg =>
            rw [hass] at h
            obtain ⟨ha, hb⟩ := Prod.mk.inj (Except.ok.inj h)
            exact ⟨by rw [← ha], Or.inl hb.symm⟩
        | true =>
          simp only at h
          rcases hen : Encode L w.rspw (hd.method hd.mainPointer reqv hd.responseType.zero).1
            with ⟨rspw, _ | e⟩
          · rw [hen] at h
            obtain ⟨ha, hb⟩ := Prod.mk.inj (Except.ok.inj h)
            exact ⟨by rw [← ha], Or.inl hb.symm⟩
          · rw [hen] at h
            obtain ⟨ha, hb⟩ := Prod.mk.inj (Except.ok.inj h)
            exact ⟨by rw [← ha], Or.inr hb.symm⟩

/-! ## Claims on `Handle` and `ServeHTTP` -/

/-- C4, counterexample: with only `Master` registered, a request to
/qrpc/master/unknown whose body fails to close with "unexpected EOF" gets
that text as qrpc_message, which does not contain "no such handler". -/
theorem C4_counterexample :
    ((masterServer goStd).bind fun srv =>
        (ServeHTTP goStd srv newWorld
          { Path := "/qrpc/master/unknown"
            Body := { value := .ok (.obj []), closeErr := some "unexpected EOF" } }).map
          fun w => w.rspw.Get "qrpc_message") = .ok (some "unexpected EOF") ∧
      ¬ ("no such handler".data <:+: "unexpected EOF".data) :=
  ⟨rfl, by decide⟩

/-- C4, amended: for a request path whose lowercase form is not a key of the
registry, `ServeHTTP` sets qrpc_code to "-2", writes no body and invokes no
handler method; qrpc_message is "no such handler" when closing the request
body succeeds, and the message of the close error otherwise. -/
theorem C4_unknown_path (L : GoLib) (srv : Server) (w : World) (req : Request)
    (hkey : ToLower L req.Path ∉ srv.keys) :
    ∃ w1, ServeHTTP L srv w req = .ok w1 ∧
      w1.rspw.Get "qrpc_code" = some "-2" ∧
      w1.rspw.Get "qrpc_message" = some (req.Body.closeErr.getD "no such handler") ∧
      w1.rspw.body = w.rspw.body ∧
      w1.calls = w.calls := by
  have hres : resolve L srv req.Path = none := (mapGet_eq_none_iff _ _).mpr hkey
  have hH := Handle_of_handleCall L srv w w req _ (handleCall_unknown L srv w req hres)
  cases hc : req.Body.closeErr with
  | none =>
    rw [hc] at hH
    exact ⟨_, ServeHTTP_of_Handle_error L srv w w req _ hH, Get_code_Set _ _ _,
      Get_message_Set _ _ _, rfl, rfl⟩
  | some ce =>
    rw [hc] at hH
    exact ⟨_, ServeHTTP_of_Handle_error L srv w w req _ hH, Get_code_Set _ _ _,
      Get_message_Set _ _ _, rfl, rfl⟩

/-- Witness of C4 (amended): the path /qrpc/master/unknown with only `Master`
registered. -/
theorem C4_unknown_path_witness :
    ∃ w1, ServeHTTP goStd
        { handlers := [("/qrpc/master/test",
            descriptor "Master" NewMaster.rv
              { Name := "HandleTest"
                In := [.ptr MasterT, .ptr TestRequest, .ptr TestResponse]
                Out := [.error]
                Func := HandleTest } TestRequest TestResponse)] }
        newWorld (newRequest "/qrpc/master/unknown" (.obj [])) = .ok w1 ∧
      w1.rspw.Get "qrpc_code" = some "-2" ∧
      w1.rspw.Get "qrpc_message" =
        some ((newRequest "/qrpc/master/unknown" (.obj [])).Body.closeErr.getD
          "no such handler") ∧
      w1.rspw.body = newWorld.rspw.body ∧
      w1.calls = newWorld.calls :=
  C4_unknown_path goStd _ newWorld (newRequest "/qrpc/master/unknown" (.obj [])) (by decide)

/-- C5, counterexample: the handler `HandleFail` of `faulty` returns the error
"boom"; when the request body fails to close with "unexpected EOF", `Handle`
returns that error and `ServeHTTP` reports qrpc_code "-2" with that
message. -/
theorem C5_counterexample :
    ((Register goStd NewServer faulty).bind fun srv =>
        (Handle goStd srv newWorld
          { Path := "/qrpc/faulty/fail"
            Body := { value := .ok (.obj []), closeErr := some "unexpected EOF" } }).map
          fun r => (r.1.calls, r.2)) =
        .ok (["Faulty.HandleFail"], some "unexpected EOF") ∧
      ((Register goStd NewServer faulty).bind fun srv =>
        (ServeHTTP goStd srv newWorld
          { Path := "/qrpc/faulty/fail"
            Body := { value := .ok (.obj []), closeErr := some "unexpected EOF" } }).map
          fun w => (w.rspw.Get "qrpc_code", w.rspw.Get "qrpc_message")) =
        .ok (some "-2", some "unexpected EOF") :=
  ⟨rfl, rfl⟩

/-- C5, amended: for a registered handler and a request whose body decodes,
if the handler method returns a non-nil error e, then `ServeHTTP` writes no
byte of the response value and the method was invoked; when closing the
request body succeeds, `Handle` returns no error and the headers are
qrpc_code "-1" and qrpc_message e; when closing fails, the headers are
qrpc_code "-2" and the message of the close error. -/
theorem C5_handler_error (L : GoLib) (srv : Server) (w : World) (req : Request)
    (hd : Handler) (reqv rsp : GoValue) (e : String)
    (hres : resolve L srv req.Path = some hd)
    (hdec : Decode L req.Body hd.requestType = .ok reqv)
    (hcall : hd.method hd.mainPointer reqv hd.responseType.zero = (rsp, .err (some e))) :
    ∃ w1, ServeHTTP L srv w req = .ok w1 ∧
      w1.rspw.body = w.rspw.body ∧
      w1.calls = w.calls ++ [hd.Name] ∧
      (req.Body.closeErr = none →
        Handle L srv w req = .ok (w1, none) ∧
          w1.rspw.Get "qrpc_code" = some "-1" ∧ w1.rspw.Get "qrpc_message" = some e) ∧
      (∀ ce, req.Body.closeErr = some ce →
        w1.rspw.Get "qrpc_code" = some "-2" ∧ w1.rspw.Get "qrpc_message" = some ce) := by
  have hH := Handle_of_handleCall L srv w _ req _
    (handleCall_handler_error L srv w req hd reqv rsp e hres hdec hcall)
  cases hc : req.Body.closeErr with
  | none =>
    rw [hc] at hH
    refine ⟨_, ServeHTTP_of_Handle_nil L srv w _ req hH, rfl, rfl, ?_, ?_⟩
    · intro _
      exact ⟨hH, Get_code_Set _ _ _, Get_message_Set _ _ _⟩
    · intro ce hce
      cases hce
  | some ce =>
    rw [hc] at hH
    refine ⟨_, ServeHTTP_of_Handle_error L srv w _ req _ hH, rfl, rfl, ?_, ?_⟩
    · intro hn
      cases hn
    · intro ce1 hce
      cases hce
      exact ⟨Get_code_Set _ _ _, Get_message_Set _ _ _⟩

/-- Witness of C5 (amended): the handler `HandleFail` of `faulty`. -/
theorem C5_handler_error_witness :
    ∃ w1, ServeHTTP goStd
        { handlers := [("/qrpc/faulty/fail",
            descriptor "Faulty" faulty.rv
              { Name := "HandleFail"
                In := [.ptr FaultyT, .ptr TestRequest, .ptr TestResponse]
                Out := [.error]
                Func := fun _ _ rsp => (rsp.setField "Message" "partial", .err (some "boom")) }
              TestRequest TestResponse)] }
        newWorld (newRequest "/qrpc/faulty/fail" (.obj [])) = .ok w1 ∧
      w1.rspw.body = newWorld.rspw.body ∧
      w1.calls = newWorld.calls ++ ["Faulty.HandleFail"] ∧
      ((newRequest "/qrpc/faulty/fail" (.obj [])).Body.closeErr = none →
        Handle goStd
            { handlers := [("/qrpc/faulty/fail",
                descriptor "Faulty" faulty.rv
                  { Name := "HandleFail"
                    In := [.ptr FaultyT, .ptr TestRequest, .ptr TestResponse]
                    Out := [.error]
                    Func := fun _ _ rsp =>
                      (rsp.setField "Message" "partial", .err (some "boom")) }
                  TestRequest TestResponse)] }
            newWorld (newRequest "/qrpc/faulty/fail" (.obj [])) = .ok (w1, none) ∧
          w1.rspw.Get "qrpc_code" = some "-1" ∧ w1.rspw.Get "qrpc_message" = some "boom") ∧
      (∀ ce, (newRequest "/qrpc/faulty/fail" (.obj [])).Body.closeErr = some ce →
        w1.rspw.Get "qrpc_code" = some "-2" ∧ w1.rspw.Get "qrpc_message" = some ce) :=
  C5_handler_error goStd _ newWorld (newRequest "/qrpc/faulty/fail" (.obj []))
    (descriptor "Faulty" faulty.rv
      { Name := "HandleFail"
        In := [.ptr FaultyT, .ptr TestRequest, .ptr TestResponse]
        Out := [.error]
        Func := fun _ _ rsp => (rsp.setField "Message" "partial", .err (some "boom")) }
      TestRequest TestResponse)
    (.struct "TestRequest" [({ Name := "Hello", Key := "hello" }, "")])
    (.struct "TestResponse" [({ Name := "Message", Key := "Message" }, "partial")])
    "boom" rfl rfl rfl

/-- C6, counterexample: the body {"hello":5} does not decode into a
`TestRequest`; when the request body also fails to close with
"unexpected EOF", `Handle` returns the close error and not the error of the
decoder. -/
theorem C6_counterexample :
    Decode goStd { value := .ok (.obj [("hello", .num 5)]), closeErr := some "unexpected EOF" }
        TestRequest =
      .error "json: cannot unmarshal number into Go struct field TestRequest.hello of type string" ∧
    ((masterServer goStd).bind fun srv =>
        (Handle goStd srv newWorld
          { Path := "/qrpc/master/test"
            Body := { value := .ok (.obj [("hello", .num 5)])
                      closeErr := some "unexpected EOF" } }).map Prod.snd) =
      .ok (some "unexpected EOF") :=
  ⟨rfl, rfl⟩

/-- C6, amended: for a registered path and a request body that fails to
decode into the request type of the handler, the handler method is not
invoked and no body is written; `Handle` returns the error of the decoder
when closing the request body succeeds and the close error otherwise, and
`ServeHTTP` reports qrpc_code "-2" with the message of the error `Handle`
returned. -/
theorem C6_decode_error (L : GoLib) (srv : Server) (w : World) (req : Request)
    (hd : Handler) (e : String)
    (hres : resolve L srv req.Path = some hd)
    (hdec : Decode L req.Body hd.requestType = .error e) :
    Handle L srv w req = .ok (w, some (req.Body.closeErr.getD e)) ∧
      ∃ w1, ServeHTTP L srv w req = .ok w1 ∧
        w1.rspw.Get "qrpc_code" = some "-2" ∧
        w1.rspw.Get "qrpc_message" = some (req.Body.closeErr.getD e) ∧
        w1.rspw.body = w.rspw.body ∧
        w1.calls = w.calls := by
  have hH := Handle_of_handleCall L srv w w req _
    (handleCall_decode_error L srv w req hd e hres hdec)
  have hH1 : Handle L srv w req = .ok (w, some (req.Body.closeErr.getD e)) := by
    rw [hH]
    cases req.Body.closeErr <;> rfl
  exact ⟨hH1, _, ServeHTTP_of_Handle_error L srv w w req _ hH1, Get_code_Set _ _ _,
    Get_message_Set _ _ _, rfl, rfl⟩

/-- Witness of C6 (amended): the body {"hello":5} sent to /qrpc/master/test. -/
theorem C6_decode_error_witness :
    Handle goStd
        { handlers := [("/qrpc/master/test",
            descriptor "Master" NewMaster.rv
              { Name := "HandleTest"
                In := [.ptr MasterT, .ptr TestRequest, .ptr TestResponse]
                Out := [.error]
                Func := HandleTest } TestRequest TestResponse)] }
        newWorld (newRequest "/qrpc/master/test" (.obj [("hello", .num 5)])) =
      .ok (newWorld,
        some ((newRequest "/qrpc/master/test" (.obj [("hello", .num 5)])).Body.closeErr.getD
          "json: cannot unmarshal number into Go struct field TestRequest.hello of type string")) ∧
      ∃ w1, ServeHTTP goStd
          { handlers := [("/qrpc/master/test",
              descriptor "Master" NewMaster.rv
                { Name := "HandleTest"
                  In := [.ptr MasterT, .ptr TestRequest, .ptr TestResponse]
                  Out := [.error]
                  Func := HandleTest } TestRequest TestResponse)] }
          newWorld (newRequest "/qrpc/master/test" (.obj [("hello", .num 5)])) = .ok w1 ∧
        w1.rspw.Get "qrpc_code" = some "-2" ∧
        w1.rspw.Get "qrpc_message" =
          some ((newRequest "/qrpc/master/test" (.obj [("hello", .num 5)])).Body.closeErr.getD
            "json: cannot unmarshal number into Go struct field TestRequest.hello of type string") ∧
        w1.rspw.body = newWorld.rspw.body ∧
        w1.calls = newWorld.calls :=
  C6_decode_error goStd _ newWorld (newRequest "/qrpc/master/test" (.obj [("hello", .num 5)]))
    (descriptor "Master" NewMaster.rv
      { Name := "HandleTest"
        In := [.ptr MasterT, .ptr TestRequest, .ptr TestResponse]
        Out := [.error]
        Func := HandleTest } TestRequest TestResponse)
    "json: cannot unmarshal number into Go struct field TestRequest.hello of type string"
    rfl rfl

/-- C9, counterexample: with `Master` registered, a well-formed request to
/qrpc/master/test is reported with qrpc_code "-2" after `HandleTest` has been
invoked, when `Write` fails with "broken pipe" on the response writer, and
when closing the request body fails with "unexpected EOF". -/
theorem C9_counterexample :
    ((masterServer goStd).bind fun srv =>
        (ServeHTTP goStd srv
          { rspw := { header := [], body := [], writeErr := some "broken pipe" }, calls := [] }
          (newRequest "/qrpc/master/test" (.obj [("hello", .str "kitty")]))).map
          fun w => (w.rspw.Get "qrpc_code", w.rspw.Get "qrpc_message", w.calls)) =
        .ok (some "-2", some "broken pipe", ["Master.HandleTest"]) ∧
      ((masterServer goStd).bind fun srv =>
        (ServeHTTP goStd srv newWorld
          { Path := "/qrpc/master/test"
            Body := { value := .ok (.obj [("hello", .str "kitty")])
                      closeErr := some "unexpected EOF" } }).map
          fun w => (w.rspw.Get "qrpc_code", w.rspw.Get "qrpc_message", w.calls)) =
        .ok (some "-2", some "unexpected EOF", ["Master.HandleTest"]) :=
  ⟨rfl, rfl⟩

/-- C9, amended: when the path has no handler or the request body fails to
decode, `Handle` returns an error, `ServeHTTP` reports qrpc_code "-2" and no
handler method is invoked; whenever `Handle` returns an error after a handler
method was invoked, the error is that of closing the request body or that of
encoding and writing the response. -/
theorem C9_transport_failures (L : GoLib) (srv : Server) (w : World) (req : Request) :
    ((resolve L srv req.Path = none ∨
        ∃ hd e, resolve L srv req.Path = some hd ∧
          Decode L req.Body hd.requestType = .error e) →
      ∃ w1 err, Handle L srv w req = .ok (w1, some err) ∧
        (∃ w2, ServeHTTP L srv w req = .ok w2 ∧
          w2.rspw.Get "qrpc_code" = some "-2" ∧ w2.calls = w.calls) ∧
        w1.calls = w.calls) ∧
    (∀ w1 err, Handle L srv w req = .ok (w1, some err) → w1.calls ≠ w.calls →
      ∃ hd reqv, resolve L srv req.Path = some hd ∧
        Decode L req.Body hd.requestType = .ok reqv ∧
        w1.calls = w.calls ++ [hd.Name] ∧
        (req.Body.closeErr = some err ∨
          (Encode L w.rspw (hd.method hd.mainPointer reqv hd.responseType.zero).1).2 =
            some err)) := by
  constructor
  · intro hfail
    have hcall : ∃ e, handleCall L srv w req = .ok (w, some e) := by
      rcases hfail with hnone | ⟨hd, e, hres, hdec⟩
      · exact ⟨_, handleCall_unknown L srv w req hnone⟩
      · exact ⟨_, handleCall_decode_error L srv w req hd e hres hdec⟩
    obtain ⟨e, he⟩ := hcall
    have hH : Handle L srv w req = .ok (w, some (req.Body.closeErr.getD e)) := by
      rw [Handle_of_handleCall L srv w w req _ he]
      cases req.Body.closeErr <;> rfl
    exact ⟨w, _, hH, ⟨_, ServeHTTP_of_Handle_error L srv w w req _ hH, Get_code_Set _ _ _, rfl⟩,
      rfl⟩
  · intro w1 err hH hne
    cases hc : handleCall L srv w req with
    | error p => simp only [Handle, hc] at hH; cases hH
    | ok r =>
      obtain ⟨w0, rerr⟩ := r
      rw [Handle_of_handleCall L srv w w0 req rerr hc] at hH
      obtain ⟨hw, herr⟩ := Prod.mk.inj (Except.ok.inj hH)
      subst hw
      rcases handleCall_inv L srv w w0 req rerr hc with hsame | ⟨hd, reqv, hres, hdec, hcalls, hr⟩
      · exact absurd (by rw [hsame]) hne
      · refine ⟨hd, reqv, hres, hdec, hcalls, ?_⟩
        cases hce : req.Body.closeErr with
        | some ce =>
          rw [hce] at herr
          exact Or.inl herr
        | none =>
          rw [hce] at herr
          simp only at herr
          rcases hr with hr | hr
          · rw [hr] at herr; cases herr
          · exact Or.inr (by rw [← hr, herr])

/-- Witness of C9 (amended): the path /qrpc/master/unknown with only `Master`
registered. -/
theorem C9_transport_failures_witness :
    ∃ w1 err, Handle goStd
        { handlers := [("/qrpc/master/test",
            descriptor "Master" NewMaster.rv
              { Name := "HandleTest"
                In := [.ptr MasterT, .ptr TestRequest, .ptr TestResponse]
                Out := [.error]
                Func := HandleTest } TestRequest TestResponse)] }
        newWorld (newRequest "/qrpc/master/unknown" (.obj [])) = .ok (w1, some err) ∧
      (∃ w2, ServeHTTP goStd
          { handlers := [("/qrpc/master/test",
              descriptor "Master" NewMaster.rv
                { Name := "HandleTest"
                  In := [.ptr MasterT, .ptr TestRequest, .ptr TestResponse]
                  Out := [.error]
                  Func := HandleTest } TestRequest TestResponse)] }
          newWorld (newRequest "/qrpc/master/unknown" (.obj [])) = .ok w2 ∧
        w2.rspw.Get "qrpc_code" = some "-2" ∧ w2.calls = newWorld.calls) ∧
      w1.calls = newWorld.calls :=
  (C9_transport_failures goStd _ newWorld (newRequest "/qrpc/master/unknown" (.obj []))).1
    (Or.inl rfl)

/-- C1, counterexample: with `Master` registered, the request body
{"head":{},"body":{"hello":"kitty"}} sent to /qrpc/master/test is decoded as
the request itself, whose member "hello" is absent, and the body written is
{"Message":"rsp: "}, not the envelope
{"head":{"code":0,"message":""},"body":{"Message":"rsp: kitty"}}. -/
theorem C1_counterexample :
    ((masterServer goStd).bind fun srv =>
        (Handle goStd srv newWorld
          (newRequest "/qrpc/master/test"
            (.obj [("head", .obj []), ("body", .obj [("hello", .str "kitty")])]))).map
          fun r => (r.1.rspw.body, r.1.calls, r.2)) =
        .ok ([.obj [("Message", .str "rsp: ")]], ["Master.HandleTest"], none) ∧
      [Json.obj [("Message", .str "rsp: ")]] ≠
        [Json.obj [("head", .obj [("code", .num 0), ("message", .str "")]),
                   ("body", .obj [("Message", .str "rsp: kitty")])]] := by
  refine ⟨rfl, ?_⟩
  simp

/-- C1, amended: with `Master` registered, for every string h a call to
`Handle` on the path /qrpc/master/test whose request body is the request
{"hello":h} itself returns no error, invokes `HandleTest`, sets no header and
writes the response {"Message":"rsp: "+h} itself; no envelope is read or
written, so that the body {"head":{},"body":{"hello":h}} is decoded into a
request with an empty `Hello` and answered by {"Message":"rsp: "}. -/
theorem C1_master_test (h : String) :
    ((masterServer goStd).bind fun srv =>
        Handle goStd srv newWorld
          (newRequest "/qrpc/master/test" (.obj [("hello", .str h)]))) =
      .ok ({ rspw := { header := []
                       body := [.obj [("Message", .str ("rsp: " ++ h))]]
                       writeErr := none }
             calls := ["Master.HandleTest"] }, none) ∧
    ((masterServer goStd).bind fun srv =>
        Handle goStd srv newWorld
          (newRequest "/qrpc/master/test"
            (.obj [("head", .obj []), ("body", .obj [("hello", .str h)])]))) =
      .ok ({ rspw := { header := []
                       body := [.obj [("Message", .str "rsp: ")]]
                       writeErr := none }
             calls := ["Master.HandleTest"] }, none) :=
  ⟨rfl, rfl⟩

end Lrpc
